import Mathlib

/-!
Verification development for the core-github-search repository.

The development shallowly embeds the agent/engine logic of the repository:
the analyst worker (apps/api/lib/agents/analyst.ts), the judge agent
(agents/judge.ts), the orchestrator phases and its bounded-concurrency
delegation scheduler and correction monitor (agents/orchestrator.ts), and
the HITL review HTTP handler (routers/agent.ts).  External capabilities
(code host, structured generation, search) are oracles passed in as data;
the persistent store is explicit state (lists of rows mirroring the
drizzle schema in db/schema).
-/

/-- One row of the repo_analysis table (db/schema/github_research.ts).
Nullable columns are Options. -/
structure AnalysisRow where
  id : String
  requestId : String
  repoUrl : String
  agentId : Option String
  status : String
  aiRanking : Option Int
  aiSummary : Option String
  aiProsCons : Option (List String × List String)
  stars : Option Int
  techStack : Option (List String)
deriving Repr, DecidableEq

/-- One row of the github_requests table (session and config columns elided;
the claims touch only id, query and status). -/
structure RequestRow where
  id : String
  query : String
  status : String
deriving Repr, DecidableEq

/-- A candidate repository descriptor as returned by the search capability;
the orchestrator and analyst only consume html_url (plus metadata fetched
later from the code host). -/
structure Candidate where
  htmlUrl : String
deriving Repr, DecidableEq

/-- One row of the hitl_reviews table (db/schema/github_research.ts). -/
structure HitlRow where
  id : String
  requestId : String
  repoSnapshotJson : Option Candidate
  userVerdict : Option Bool
  rationale : Option String
  status : String
deriving Repr, DecidableEq

/-- Repository metadata from the code host (github_get_repo); only the
field the analyst persists. -/
structure RepoDetails where
  stargazersCount : Int
deriving Repr, DecidableEq

/-- The shape the analyst validates the generation output against
(analyst.ts lines 129-137).  It mirrors the zod schema exactly:
ai_ranking is z.number() with no bounds, the rest are strings and string
lists. -/
structure AnalysisOutput where
  aiRanking : Int
  aiSummary : String
  pros : List String
  cons : List String
  techStack : List String
deriving Repr, DecidableEq

/-- The external capabilities an analyst run consumes, as oracles: each is
the (pre-determined) outcome the external call would have on this run.
`Except.error` is a thrown exception, caught by the catch block of run. -/
structure AnalystEnv where
  getRepo : Except String RepoDetails
  readFile : String → Except String String
  generate : Except String AnalysisOutput

/-- Outcome of one analyst run: the pair was already analyzed (skipped),
the analysis was persisted (completed), or an exception was caught
(errored). -/
inductive RunOutcome where
  | skipped
  | completed
  | errored (msg : String)
deriving Repr, DecidableEq

/-- What an analyst run returns: the repo_analysis table after the run, the
outcome, and the sequence of BaseAgent.status calls it issued, each as
(requestId, status, optional message). -/
structure RunResult where
  db : List AnalysisRow
  outcome : RunOutcome
  statusCalls : List (String × String × Option String)
deriving Repr, DecidableEq

/-- Splitting a character list at every occurrence of the separator, the
splitOn of JS String.prototype.split for one-character separators. -/
def splitOnChar (c : Char) : List Char → List (List Char)
  | [] => [[]]
  | x :: xs =>
    let r := splitOnChar c xs
    if x = c then [] :: r
    else
      match r with
      | [] => [[x]]
      | y :: ys => (x :: y) :: ys

/-- Path segments of a repository URL: new URL(repoUrl).pathname is the
part after scheme://host, so splitting the whole URL on / and dropping
the scheme, empty and host fields gives pathname.split of the source,
then filter(Boolean) drops empty segments (analyst.ts lines 68-69). -/
def urlPathSegments (url : String) : List String :=
  (((splitOnChar '/' url.toList).map (fun cs => String.mk cs)).drop 3).filter
    (fun s => s ≠ "")

/-- The dedup lookup of analyst.ts lines 55-60: first existing
repo_analysis row for this exact (requestId, repoUrl) pair. -/
def findExisting (db : List AnalysisRow) (requestId repoUrl : String) : Option AnalysisRow :=
  db.find? (fun r => r.requestId == requestId && r.repoUrl == repoUrl)

/-- The body of the try block of analyst.ts lines 68-152 after the dedup
check: parse the URL, fetch repo details, read README.md (errors
propagate), read package.json with errors swallowed to null, generate the
structured analysis, and build the row to insert.  Any `Except.error` is
an exception reaching the catch block. -/
def analyzeAttempt (env : AnalystEnv) (freshId requestId repoUrl : String) :
    Except String AnalysisRow :=
  if (urlPathSegments repoUrl).length < 2 then Except.error "Invalid repository URL"
  else
    match env.getRepo with
    | Except.error e => Except.error e
    | Except.ok repoDetails =>
      match env.readFile "README.md" with
      | Except.error e => Except.error e
      | Except.ok _readmeContent =>
        let _packageJsonContent : Option String := (env.readFile "package.json").toOption
        match env.generate with
        | Except.error e => Except.error e
        | Except.ok analysis =>
          Except.ok
            { id := freshId
              requestId := requestId
              repoUrl := repoUrl
              agentId := some "GithubAnalystAgent"
              status := "complete"
              aiRanking := some analysis.aiRanking
              aiSummary := some analysis.aiSummary
              aiProsCons := some (analysis.pros, analysis.cons)
              stars := some repoDetails.stargazersCount
              techStack := some analysis.techStack }

/-- GithubAnalystAgent.run (analyst.ts lines 49-162).  It first issues
status analyzing, then either skips (pair already analyzed), inserts the
complete row and issues status complete, or catches the exception and
issues status error with the message; the catch block performs no insert
into repo_analysis.  freshId stands for the crypto.randomUUID() of the
insert. -/
def GithubAnalystAgent.run (env : AnalystEnv) (freshId : String) (db : List AnalysisRow)
    (requestId repoUrl : String) : RunResult :=
  match findExisting db requestId repoUrl with
  | some _ =>
      { db := db
        outcome := RunOutcome.skipped
        statusCalls := [(requestId, "analyzing", none)] }
  | none =>
      match analyzeAttempt env freshId requestId repoUrl with
      | Except.ok row =>
          { db := db ++ [row]
            outcome := RunOutcome.completed
            statusCalls := [(requestId, "analyzing", none), (requestId, "complete", none)] }
      | Except.error msg =>
          { db := db
            outcome := RunOutcome.errored msg
            statusCalls := [(requestId, "analyzing", none), (requestId, "error", some msg)] }

/-- All repo_analysis rows for one (requestId, repoUrl) pair. -/
def pairRows (db : List AnalysisRow) (requestId repoUrl : String) : List AnalysisRow :=
  db.filter (fun r => r.requestId == requestId && r.repoUrl == repoUrl)

/-- The row a successful attempt builds (the insert of analyst.ts lines
141-152), named for reuse in statements. -/
def builtRow (freshId requestId repoUrl : String) (d : RepoDetails) (a : AnalysisOutput) :
    AnalysisRow :=
  { id := freshId
    requestId := requestId
    repoUrl := repoUrl
    agentId := some "GithubAnalystAgent"
    status := "complete"
    aiRanking := some a.aiRanking
    aiSummary := some a.aiSummary
    aiProsCons := some (a.pros, a.cons)
    stars := some d.stargazersCount
    techStack := some a.techStack }

/-- Modelled from the spec: BaseAgent.status lives in agents/core/base,
which is absent from the sources; only its call sites are visible.  Per
the spec (§4.1), the orchestrator persists every phase transition on the
SearchRequest, including Error with a stored failure message, and it does
so through exactly these status(requestId, newStatus, message?) calls; the
github_requests row is the only status column keyed by requestId in the
schema.  So status updates the status field of the github_requests row
whose id matches the given requestId. -/
def applyStatus (reqs : List RequestRow) (call : String × String × Option String) :
    List RequestRow :=
  reqs.map (fun r => if r.id == call.1 then { r with status := call.2.1 } else r)

/-- Folding a sequence of BaseAgent.status calls over the github_requests
table. -/
def applyStatusCalls (reqs : List RequestRow) (calls : List (String × String × Option String)) :
    List RequestRow :=
  calls.foldl applyStatus reqs

/-- The last status a run issued (the value its request row ends up
holding under the status helper). -/
def finalStatus (res : RunResult) : String :=
  (res.statusCalls.map (fun c => c.2.1)).getLastD ""

/-- JudgeAgent.review (agents/judge.ts lines 11-67).  The oracle is the
structured generation outcome: the lists of approved and rejected result
ids.  On generation failure the exception propagates (review has no catch)
after the judging status call; on success review returns the input results
whose id is approved, in input order, after issuing judging and judged. -/
def JudgeAgent.review (oracle : Except String (List String × List String))
    (requestId : String) (results : List AnalysisRow) :
    Except String (List AnalysisRow) × List (String × String × Option String) :=
  match oracle with
  | Except.error e => (Except.error e, [(requestId, "judging", none)])
  | Except.ok (approvedIds, _rejected) =>
      (Except.ok (results.filter (fun r => approvedIds.contains r.id)),
       [(requestId, "judging", none), (requestId, "judged", none)])

/-! ### The delegation scheduler (orchestrator.ts lines 116-185)

The supervision phase keeps a queue of repos and an array running of
in-flight promises; processQueue moves tasks from the queue head into
running while fewer than the concurrency bound are in flight; each
finishing task splices itself out of running and calls processQueue
again; the drain loop awaits until running is empty.  The state below
also records started (the order tasks were dispatched in) and done (each
finished task with an outcome flag: the worker resolves its promise both
on success and on a caught failure). -/

structure SchedState (α : Type) where
  queue : List α
  running : List α
  started : List α
  done : List (α × Bool)
deriving Repr, DecidableEq

/-- The while loop inside processQueue: shift tasks off the queue into
running (and record them as started) while running holds fewer than K
tasks.  Returns the final (queue, running, started). -/
def fillSlots (K : Nat) : List α → List α → List α → List α × List α × List α
  | [], running, started => ([], running, started)
  | t :: rest, running, started =>
    if running.length < K then fillSlots K rest (running ++ [t]) (started ++ [t])
    else (t :: rest, running, started)

/-- processQueue (orchestrator.ts lines 138-158) as a state transformer. -/
def processQueue (K : Nat) (s : SchedState α) : SchedState α :=
  let r := fillSlots K s.queue s.running s.started
  { queue := r.1, running := r.2.1, started := r.2.2, done := s.done }

/-- A task resolving: the promise at position i of running (any position:
completion order is not guaranteed) finishes with outcome ok (true for a
clean analysis, false when the worker caught a failure; either way the
promise resolves), splices itself out of running and calls processQueue
(orchestrator.ts lines 147-154).  An out-of-range i leaves the state
unchanged. -/
def finishTask (K : Nat) (s : SchedState α) (i : Nat) (ok : Bool) : SchedState α :=
  if h : i < s.running.length then
    processQueue K
      { queue := s.queue
        running := s.running.eraseIdx i
        started := s.started
        done := s.done ++ [(s.running.get ⟨i, h⟩, ok)] }
  else s

/-- The supervision phase after dispatch: a sequence of task-completion
events applied in order. -/
def runSched (K : Nat) (s : SchedState α) (events : List (Nat × Bool)) : SchedState α :=
  match events with
  | [] => s
  | e :: rest => runSched K (finishTask K s e.1 e.2) rest

/-- The initial dispatch: queue holds the repos to analyze in submission
order, nothing is running, and processQueue is called once
(orchestrator.ts line 160). -/
def initSched (K : Nat) (tasks : List α) : SchedState α :=
  processQueue K { queue := tasks, running := [], started := [], done := [] }

/-! ### Orchestrator phases touched by the claims -/

/-- Relevance score of a result as the orchestrator reads it: the JS
expression (r.aiRanking ?? 0), a missing score counting as 0
(orchestrator.ts lines 168 and 195). -/
def rankOf (r : AnalysisRow) : Int := r.aiRanking.getD 0

/-- The correction text the monitor sends (orchestrator.ts line 172). -/
def correctionText : String :=
  "The AI ranking seems low. Please be more generous with your rankings."

/-- One tick of the correction monitor (orchestrator.ts lines 163-177):
read all results for the request; if some result has (aiRanking ?? 0)
below 10, send the correction message over every open analyst socket.
Returns the messages sent on this tick as (socket, text) pairs. -/
def monitorTick (rows : List AnalysisRow) (sockets : List String) : List (String × String) :=
  if rows.any (fun r => rankOf r < 10) then
    sockets.map (fun ws => (ws, correctionText))
  else []

/-- The descending comparison the synthesis sort uses: the JS comparator
(b.aiRanking ?? 0) - (a.aiRanking ?? 0) orders a before b exactly when
the rank of b is at most the rank of a. -/
def byRankDesc (a b : AnalysisRow) : Bool := rankOf b ≤ rankOf a

/-- The synthesis phase selection (orchestrator.ts lines 192-195): sort
all results for the request descending by (aiRanking ?? 0) and slice the
first 12. -/
def synthesisTopTwelve (results : List AnalysisRow) : List AnalysisRow :=
  (results.mergeSort byRankDesc).take 12

/-- The sampling truncation of start (orchestrator.ts line 49): flatten
the items of every search result and keep the first 5. -/
def sampledTopFive (searchResults : List (List Candidate)) : List Candidate :=
  (searchResults.flatMap (fun r => r)).take 5

/-- The HITL rows start creates (orchestrator.ts lines 55-62): one pending
row per sampled candidate; idGen stands for crypto.randomUUID() per
item. -/
def startHitlItems (idGen : Nat → String) (requestId : String)
    (searchResults : List (List Candidate)) : List HitlRow :=
  (sampledTopFive searchResults).enum.map (fun p =>
    { id := idGen p.1
      requestId := requestId
      repoSnapshotJson := some p.2
      userVerdict := none
      rationale := none
      status := "pending" })

/-! ### The HITL review HTTP handler (routers/agent.ts lines 448-484) -/

/-- The review-completion precondition the handler computes: all hitl
rows of the request are reviewed (the count of reviewed rows equals the
row count). -/
def allReviewed (db : List HitlRow) (requestId : String) : Bool :=
  let allReviews := db.filter (fun r => r.requestId == requestId)
  allReviews.length == (allReviews.filter (fun r => r.status == "reviewed")).length

/-- One POST /hitl/reviewId/review submission: update the row (verdict,
rationale defaulting to the empty string, status reviewed), re-read it,
and when every row of its request is reviewed, fire
orchestrator.continue for the request.  Returns the table after the
update and whether continue was fired by this submission. -/
def reviewHitl (db : List HitlRow) (reviewId : String) (userVerdict : Bool)
    (rationale : Option String) : List HitlRow × Bool :=
  let db1 := db.map (fun r =>
    if r.id == reviewId then
      { r with userVerdict := some userVerdict
               rationale := some (rationale.getD "")
               status := "reviewed" }
    else r)
  match db1.find? (fun r => r.id == reviewId) with
  | none => (db1, false)
  | some review => (db1, allReviewed db1 review.requestId)

/-- A sequence of review submissions, counting how many of them fired
orchestrator.continue. -/
def reviewSequence (db : List HitlRow) (subs : List (String × Bool)) : List HitlRow × Nat :=
  subs.foldl (fun acc sub =>
    let r := reviewHitl acc.1 sub.1 sub.2 none
    (r.1, acc.2 + (if r.2 then 1 else 0))) (db, 0)

/-! ### Invariants and concrete fixtures -/

/-- The scheduler invariant: never more than K in flight; tasks start in
submission order (started is the dispatched prefix of the submission
list and queue the rest); a free slot means the queue is empty (each
finish immediately refills); and no task is lost or duplicated. -/
def SchedInv (K : Nat) (tasks : List α) (s : SchedState α) : Prop :=
  s.running.length ≤ K ∧
  s.started ++ s.queue = tasks ∧
  (s.running.length < K → s.queue = []) ∧
  (s.queue ++ (s.running ++ s.done.map Prod.fst)).Perm tasks

/-- Two scheduler states that agree except possibly on the recorded
outcome flags of finished tasks. -/
def SameButOutcomes (s t : SchedState α) : Prop :=
  s.queue = t.queue ∧ s.running = t.running ∧ s.started = t.started ∧
  s.done.map Prod.fst = t.done.map Prod.fst

/-- An environment whose code-host metadata fetch throws. -/
def envFail : AnalystEnv :=
  { getRepo := Except.error "github fetch failed"
    readFile := fun _ => Except.ok ""
    generate := Except.ok ⟨50, "summary", [], [], []⟩ }

/-- An environment whose structured generation returns the given ranking
and every external call succeeds. -/
def envRank (n : Int) : AnalystEnv :=
  { getRepo := Except.ok ⟨7⟩
    readFile := fun _ => Except.ok "content"
    generate := Except.ok ⟨n, "summary", [], [], []⟩ }

/-- An environment where the optional manifest file package.json is
absent on the code host (the read returns not-found) while every other
call succeeds. -/
def envManifest404 : AnalystEnv :=
  { getRepo := Except.ok ⟨7⟩
    readFile := fun p => if p == "package.json" then Except.error "404 Not Found"
                         else Except.ok "readme"
    generate := Except.ok ⟨60, "summary", [], [], []⟩ }

/-- The row run inserts when driven by envRank n. -/
def rankRow (freshId requestId repoUrl : String) (n : Int) : AnalysisRow :=
  { id := freshId
    requestId := requestId
    repoUrl := repoUrl
    agentId := some "GithubAnalystAgent"
    status := "complete"
    aiRanking := some n
    aiSummary := some "summary"
    aiProsCons := some ([], [])
    stars := some 7
    techStack := some [] }

/-- Two pending HITL rows of one request, as created by start for a
two-candidate preview. -/
def hitlFixture : List HitlRow :=
  [{ id := "a", requestId := "r1", repoSnapshotJson := none, userVerdict := none,
     rationale := none, status := "pending" },
   { id := "b", requestId := "r1", repoSnapshotJson := none, userVerdict := none,
     rationale := none, status := "pending" }]

/-- A minimal analysis row fixture with the given id and ranking. -/
def rowFix (i : String) (rk : Option Int) : AnalysisRow :=
  { id := i, requestId := "r1", repoUrl := i, agentId := none, status := "complete",
    aiRanking := rk, aiSummary := none, aiProsCons := none, stars := none, techStack := none }

/-! ## Theorems -/

/-- C10: on every tick of the correction monitor, a persisted result with
an absent (null) relevance score is read as score 0; hence whenever some
result of the request has a missing score or a score below 10, that tick
sends the correction message to every open analyst socket. -/
theorem monitorTick_null_scores_broadcast (rows : List AnalysisRow) (sockets : List String) :
    (∀ r : AnalysisRow, r.aiRanking = none → rankOf r = 0) ∧
    ((∃ r ∈ rows, r.aiRanking = none ∨ ∃ k, r.aiRanking = some k ∧ k < 10) →
      monitorTick rows sockets = sockets.map (fun ws => (ws, correctionText))) := by
  constructor
  · intro r h
    simp [rankOf, h]
  · rintro ⟨r, hr, hcase⟩
    have hlow : rankOf r < 10 := by
      rcases hcase with h | ⟨k, hk, hk10⟩
      · simp [rankOf, h]
      · simpa [rankOf, hk] using hk10
    have hany : rows.any (fun r => rankOf r < 10) = true :=
      List.any_eq_true.mpr ⟨r, hr, by simpa using hlow⟩
    simp [monitorTick, hany]

/-- Witness for C10 at a concrete tick: one result with a null score and
two open sockets. -/
theorem monitorTick_null_scores_broadcast_witness :
    rankOf (rowFix "a" none) = 0 ∧
    monitorTick [rowFix "a" none] ["ws1", "ws2"] =
      ["ws1", "ws2"].map (fun ws => (ws, correctionText)) := by
  constructor
  · exact (monitorTick_null_scores_broadcast [] []).1 (rowFix "a" none) rfl
  · exact (monitorTick_null_scores_broadcast [rowFix "a" none] ["ws1", "ws2"]).2
      ⟨rowFix "a" none, by simp, Or.inl rfl⟩

/-- C5 evaluated at the failing input: two HITL items of one request are
reviewed (firing continue once on the second submission), then a verdict
is re-submitted for the already-reviewed first item; the handler fires
orchestrator.continue a second time for the same request, and
OrchestratorAgent.continue (orchestrator.ts lines 71-95) has no guard
against re-entry. -/
theorem reviewHitl_fires_continue_twice :
    (reviewSequence hitlFixture [("a", true), ("b", true), ("a", false)]).2 = 2 := by
  decide

/-- C7: when the merged sampling search yields zero candidates, start
creates zero HITL review items, and on the resulting table the request
passes the review-completion check the continue trigger uses, so it is
immediately eligible for continue. -/
theorem startZeroCandidates_eligible (idGen : Nat → String) (requestId : String)
    (searchResults : List (List Candidate)) (db : List HitlRow)
    (hzero : searchResults.flatMap (fun r => r) = [])
    (hfresh : db.filter (fun r => r.requestId == requestId) = []) :
    startHitlItems idGen requestId searchResults = [] ∧
    allReviewed (db ++ startHitlItems idGen requestId searchResults) requestId = true := by
  have h1 : startHitlItems idGen requestId searchResults = [] := by
    simp [startHitlItems, sampledTopFive, hzero]
  refine ⟨h1, ?_⟩
  rw [h1, List.append_nil]
  simp [allReviewed, hfresh]

/-- Witness for C7: an empty merged search over a fresh request. -/
theorem startZeroCandidates_eligible_witness :
    startHitlItems (fun i => toString i) "r9" [[], []] = [] ∧
    allReviewed ([] ++ startHitlItems (fun i => toString i) "r9" [[], []]) "r9" = true :=
  startZeroCandidates_eligible (fun i => toString i) "r9" [[], []] [] (by decide) (by decide)

/-- Helper: a run that finds an existing row for the pair skips. -/
theorem run_eq_of_found (env : AnalystEnv) (freshId : String) (db : List AnalysisRow)
    (requestId repoUrl : String) (r : AnalysisRow)
    (h : findExisting db requestId repoUrl = some r) :
    GithubAnalystAgent.run env freshId db requestId repoUrl =
      { db := db, outcome := RunOutcome.skipped,
        statusCalls := [(requestId, "analyzing", none)] } := by
  unfold GithubAnalystAgent.run
  rw [h]

/-- Helper: a run whose attempt succeeds appends exactly the built row. -/
theorem run_eq_of_ok (env : AnalystEnv) (freshId : String) (db : List AnalysisRow)
    (requestId repoUrl : String) (row : AnalysisRow)
    (h1 : findExisting db requestId repoUrl = none)
    (h2 : analyzeAttempt env freshId requestId repoUrl = Except.ok row) :
    GithubAnalystAgent.run env freshId db requestId repoUrl =
      { db := db ++ [row], outcome := RunOutcome.completed,
        statusCalls := [(requestId, "analyzing", none), (requestId, "complete", none)] } := by
  unfold GithubAnalystAgent.run
  rw [h1, h2]

/-- Helper: a run whose attempt throws leaves the table unchanged. -/
theorem run_eq_of_error (env : AnalystEnv) (freshId : String) (db : List AnalysisRow)
    (requestId repoUrl : String) (msg : String)
    (h1 : findExisting db requestId repoUrl = none)
    (h2 : analyzeAttempt env freshId requestId repoUrl = Except.error msg) :
    GithubAnalystAgent.run env freshId db requestId repoUrl =
      { db := db, outcome := RunOutcome.errored msg,
        statusCalls := [(requestId, "analyzing", none), (requestId, "error", some msg)] } := by
  unfold GithubAnalystAgent.run
  rw [h1, h2]

/-- Helper: the attempt either throws, or succeeds with the row built from
the successful repo fetch and generation. -/
theorem analyzeAttempt_shape (env : AnalystEnv) (freshId requestId repoUrl : String) :
    (∃ msg, analyzeAttempt env freshId requestId repoUrl = Except.error msg) ∨
    (∃ d a, env.getRepo = Except.ok d ∧ env.generate = Except.ok a ∧
      analyzeAttempt env freshId requestId repoUrl =
        Except.ok (builtRow freshId requestId repoUrl d a)) := by
  unfold analyzeAttempt
  by_cases hseg : (urlPathSegments repoUrl).length < 2
  · exact Or.inl ⟨_, by rw [if_pos hseg]⟩
  · rw [if_neg hseg]
    cases hg : env.getRepo with
    | error e => exact Or.inl ⟨e, rfl⟩
    | ok d =>
      cases hr : env.readFile "README.md" with
      | error e => exact Or.inl ⟨e, rfl⟩
      | ok c =>
        cases hgen : env.generate with
        | error e => exact Or.inl ⟨e, rfl⟩
        | ok a => exact Or.inr ⟨d, a, rfl, rfl, rfl⟩

/-- Helper: the explicit value of a successful attempt. -/
theorem analyzeAttempt_eq_ok (env : AnalystEnv) (freshId requestId repoUrl : String)
    (d : RepoDetails) (c : String) (a : AnalysisOutput)
    (hseg : 2 ≤ (urlPathSegments repoUrl).length)
    (hg : env.getRepo = Except.ok d)
    (hr : env.readFile "README.md" = Except.ok c)
    (hgen : env.generate = Except.ok a) :
    analyzeAttempt env freshId requestId repoUrl =
      Except.ok (builtRow freshId requestId repoUrl d a) := by
  unfold analyzeAttempt
  rw [if_neg (by omega), hg, hr, hgen]
  rfl

/-- C2 counterexample: a run on which the code-host fetch throws catches
the exception, yet persists no repo_analysis row at all — in particular
none with status error for its (request, candidate) pair. -/
theorem analystRun_error_persists_no_row :
    (GithubAnalystAgent.run envFail "id0" [] "req1" "https://github.com/acme/widget").outcome
      = RunOutcome.errored "github fetch failed" ∧
    (GithubAnalystAgent.run envFail "id0" [] "req1" "https://github.com/acme/widget").db = [] := by
  constructor <;> rfl

/-- C2 amended: on any exception during fetch, generation, validation or
persist the worker catches it, issues status error with the failure
message through the shared status helper (keyed by its requestId), and
does not raise further; it persists no repo_analysis row on failure, and
in every case the only table mutation a run can make is appending its own
(request, candidate) row with status complete — sibling workers and the
batch are untouched. -/
theorem analystRun_failure_isolated (env : AnalystEnv) (freshId : String)
    (db : List AnalysisRow) (requestId repoUrl : String) :
    (∀ msg,
      (GithubAnalystAgent.run env freshId db requestId repoUrl).outcome
          = RunOutcome.errored msg →
      (GithubAnalystAgent.run env freshId db requestId repoUrl).db = db ∧
      (GithubAnalystAgent.run env freshId db requestId repoUrl).statusCalls =
        [(requestId, "analyzing", none), (requestId, "error", some msg)]) ∧
    ((GithubAnalystAgent.run env freshId db requestId repoUrl).db = db ∨
      ∃ row, (GithubAnalystAgent.run env freshId db requestId repoUrl).db = db ++ [row] ∧
        row.requestId = requestId ∧ row.repoUrl = repoUrl ∧ row.status = "complete") := by
  cases hfind : findExisting db requestId repoUrl with
  | some r =>
    rw [run_eq_of_found env freshId db requestId repoUrl r hfind]
    exact ⟨fun msg h => by simp at h, Or.inl rfl⟩
  | none =>
    rcases analyzeAttempt_shape env freshId requestId repoUrl with ⟨msg0, hA⟩ | ⟨d, a, hg, hgen, hA⟩
    · rw [run_eq_of_error env freshId db requestId repoUrl msg0 hfind hA]
      refine ⟨fun msg h => ?_, Or.inl rfl⟩
      simp only [RunOutcome.errored.injEq] at h
      subst h
      exact ⟨rfl, rfl⟩
    · rw [run_eq_of_ok env freshId db requestId repoUrl _ hfind hA]
      exact ⟨fun msg h => by simp at h, Or.inr ⟨_, rfl, rfl, rfl, rfl⟩⟩

/-- Witness for the C2 amended theorem at the failing fetch environment. -/
theorem analystRun_failure_isolated_witness :
    (GithubAnalystAgent.run envFail "id0" [] "req1" "https://github.com/acme/widget").db = [] ∧
    (GithubAnalystAgent.run envFail "id0" [] "req1" "https://github.com/acme/widget").statusCalls =
      [("req1", "analyzing", none), ("req1", "error", some "github fetch failed")] :=
  (analystRun_failure_isolated envFail "id0" [] "req1" "https://github.com/acme/widget").1
    "github fetch failed" (by decide)

/-- Helper: a pair-free table has no existing row for the pair. -/
theorem findExisting_of_pairRows_nil (db : List AnalysisRow) (requestId repoUrl : String)
    (h : pairRows db requestId repoUrl = []) :
    findExisting db requestId repoUrl = none :=
  List.find?_eq_none.mpr (List.filter_eq_nil_iff.mp h)

/-- Helper: appending a row of the pair makes it the found row of a
previously pair-free table. -/
theorem findExisting_append_self (db : List AnalysisRow) (requestId repoUrl : String)
    (row : AnalysisRow) (hnone : findExisting db requestId repoUrl = none)
    (h1 : row.requestId = requestId) (h2 : row.repoUrl = repoUrl) :
    findExisting (db ++ [row]) requestId repoUrl = some row := by
  unfold findExisting at hnone ⊢
  rw [List.find?_append, hnone]
  simp [h1, h2]

/-- Helper: pairRows distributes over appending a matching row. -/
theorem pairRows_append_match (db : List AnalysisRow) (requestId repoUrl : String)
    (row : AnalysisRow) (h1 : row.requestId = requestId) (h2 : row.repoUrl = repoUrl) :
    pairRows (db ++ [row]) requestId repoUrl = pairRows db requestId repoUrl ++ [row] := by
  unfold pairRows
  rw [List.filter_append]
  simp [h1, h2]

/-- C3 counterexample: with the store fresh and the code host failing on
both invocations, running twice for the same pair persists zero results
for the pair, not exactly one — and both invocations really attempted
the analysis (each errored rather than skipped). -/
theorem analystRun_twice_zero_rows :
    (GithubAnalystAgent.run envFail "id1" [] "req1" "https://github.com/acme/widget").outcome
      = RunOutcome.errored "github fetch failed" ∧
    (GithubAnalystAgent.run envFail "id2"
        (GithubAnalystAgent.run envFail "id1" [] "req1" "https://github.com/acme/widget").db
        "req1" "https://github.com/acme/widget").outcome
      = RunOutcome.errored "github fetch failed" ∧
    pairRows
      (GithubAnalystAgent.run envFail "id2"
        (GithubAnalystAgent.run envFail "id1" [] "req1" "https://github.com/acme/widget").db
        "req1" "https://github.com/acme/widget").db
      "req1" "https://github.com/acme/widget" = [] :=
  ⟨rfl, rfl, rfl⟩

/-- C3 amended: two sequential runs for the same (requestId, repoUrl)
pair, starting from a pair-free table, persist at most one result row for
the pair; and whenever the first run completes, the second invocation
finds the persisted row, skips, and is a no-op on the analysis table,
leaving exactly one row for the pair. -/
theorem analystRun_idempotent (env1 env2 : AnalystEnv) (id1 id2 : String)
    (db : List AnalysisRow) (requestId repoUrl : String)
    (hfresh : pairRows db requestId repoUrl = []) :
    (pairRows (GithubAnalystAgent.run env2 id2
        (GithubAnalystAgent.run env1 id1 db requestId repoUrl).db requestId repoUrl).db
      requestId repoUrl).length ≤ 1 ∧
    ((GithubAnalystAgent.run env1 id1 db requestId repoUrl).outcome = RunOutcome.completed →
      (GithubAnalystAgent.run env2 id2
          (GithubAnalystAgent.run env1 id1 db requestId repoUrl).db requestId repoUrl).db =
        (GithubAnalystAgent.run env1 id1 db requestId repoUrl).db ∧
      (GithubAnalystAgent.run env2 id2
          (GithubAnalystAgent.run env1 id1 db requestId repoUrl).db requestId repoUrl).outcome =
        RunOutcome.skipped ∧
      (pairRows (GithubAnalystAgent.run env2 id2
          (GithubAnalystAgent.run env1 id1 db requestId repoUrl).db requestId repoUrl).db
        requestId repoUrl).length = 1) := by
  have hfind1 : findExisting db requestId repoUrl = none :=
    findExisting_of_pairRows_nil db requestId repoUrl hfresh
  rcases analyzeAttempt_shape env1 id1 requestId repoUrl with ⟨m1, hA1⟩ | ⟨d1, a1, _, _, hA1⟩
  · -- first run throws: table still pair-free
    have hdb1 : (GithubAnalystAgent.run env1 id1 db requestId repoUrl).db = db := by
      rw [run_eq_of_error env1 id1 db requestId repoUrl m1 hfind1 hA1]
    have hout1 : (GithubAnalystAgent.run env1 id1 db requestId repoUrl).outcome
        = RunOutcome.errored m1 := by
      rw [run_eq_of_error env1 id1 db requestId repoUrl m1 hfind1 hA1]
    refine ⟨?_, fun h => ?_⟩
    · rw [hdb1]
      rcases analyzeAttempt_shape env2 id2 requestId repoUrl with ⟨m2, hA2⟩ | ⟨d2, a2, _, _, hA2⟩
      · have hdb2 : (GithubAnalystAgent.run env2 id2 db requestId repoUrl).db = db := by
          rw [run_eq_of_error env2 id2 db requestId repoUrl m2 hfind1 hA2]
        rw [hdb2, hfresh]
        simp
      · have hdb2 : (GithubAnalystAgent.run env2 id2 db requestId repoUrl).db
            = db ++ [builtRow id2 requestId repoUrl d2 a2] := by
          rw [run_eq_of_ok env2 id2 db requestId repoUrl _ hfind1 hA2]
        rw [hdb2,
          pairRows_append_match db requestId repoUrl (builtRow id2 requestId repoUrl d2 a2) rfl rfl,
          hfresh]
        simp
    · rw [hout1] at h
      simp at h
  · -- first run persists its row; the second finds it and skips
    have hdb1 : (GithubAnalystAgent.run env1 id1 db requestId repoUrl).db
        = db ++ [builtRow id1 requestId repoUrl d1 a1] := by
      rw [run_eq_of_ok env1 id1 db requestId repoUrl _ hfind1 hA1]
    have hfind2 : findExisting (db ++ [builtRow id1 requestId repoUrl d1 a1]) requestId repoUrl
        = some (builtRow id1 requestId repoUrl d1 a1) :=
      findExisting_append_self db requestId repoUrl (builtRow id1 requestId repoUrl d1 a1)
        hfind1 rfl rfl
    have h2 := run_eq_of_found env2 id2 (db ++ [builtRow id1 requestId repoUrl d1 a1])
      requestId repoUrl (builtRow id1 requestId repoUrl d1 a1) hfind2
    have hdb2 : (GithubAnalystAgent.run env2 id2 (db ++ [builtRow id1 requestId repoUrl d1 a1])
        requestId repoUrl).db = db ++ [builtRow id1 requestId repoUrl d1 a1] := by rw [h2]
    have hout2 : (GithubAnalystAgent.run env2 id2 (db ++ [builtRow id1 requestId repoUrl d1 a1])
        requestId repoUrl).outcome = RunOutcome.skipped := by rw [h2]
    have hpair : pairRows (db ++ [builtRow id1 requestId repoUrl d1 a1]) requestId repoUrl
        = [builtRow id1 requestId repoUrl d1 a1] := by
      rw [pairRows_append_match db requestId repoUrl (builtRow id1 requestId repoUrl d1 a1) rfl rfl,
        hfresh]
      rfl
    rw [hdb1, hdb2, hpair]
    exact ⟨by simp, fun _ => ⟨rfl, hout2, by simp⟩⟩

/-- Witness for the C3 amended theorem: a completing first run followed by
a second invocation for the same pair. -/
theorem analystRun_idempotent_witness :
    (GithubAnalystAgent.run envFail "id2"
        (GithubAnalystAgent.run (envRank 50) "id1" [] "req1" "https://github.com/acme/widget").db
        "req1" "https://github.com/acme/widget").db =
      (GithubAnalystAgent.run (envRank 50) "id1" [] "req1" "https://github.com/acme/widget").db ∧
    (GithubAnalystAgent.run envFail "id2"
        (GithubAnalystAgent.run (envRank 50) "id1" [] "req1" "https://github.com/acme/widget").db
        "req1" "https://github.com/acme/widget").outcome = RunOutcome.skipped ∧
    (pairRows (GithubAnalystAgent.run envFail "id2"
        (GithubAnalystAgent.run (envRank 50) "id1" [] "req1" "https://github.com/acme/widget").db
        "req1" "https://github.com/acme/widget").db
      "req1" "https://github.com/acme/widget").length = 1 :=
  (analystRun_idempotent (envRank 50) envFail "id1" "id2" [] "req1"
    "https://github.com/acme/widget" rfl).2 (by decide)

/-- C8 counterexample: a generation output with ranking 150 passes the
schema (which bounds nothing) and run persists it with status complete;
the persisted relevance score is not in [1, 100]. -/
theorem analystRun_persists_unbounded_rank :
    (GithubAnalystAgent.run (envRank 150) "id1" [] "req1" "https://github.com/acme/widget").db
      = [rankRow "id1" "req1" "https://github.com/acme/widget" 150] ∧
    (rankRow "id1" "req1" "https://github.com/acme/widget" 150).status = "complete" ∧
    (rankRow "id1" "req1" "https://github.com/acme/widget" 150).aiRanking = some 150 ∧
    ¬((1 : Int) ≤ 150 ∧ (150 : Int) ≤ 100) :=
  ⟨rfl, rfl, rfl, by decide⟩

/-- C8 amended: the fixed schema validates shape only (numeric ranking,
summary text, pros/cons lists, tech-stack list) and bounds nothing: a run
that persists a complete row stores verbatim the ranking generation
returned, and for every integer n — in range or not — the environment
envRank n makes run persist a complete row with relevance score n. -/
theorem analystRun_rank_not_bounded (env : AnalystEnv) (freshId : String)
    (db : List AnalysisRow) (requestId repoUrl : String) (n : Int) (a : AnalysisOutput)
    (hgen : env.generate = Except.ok a)
    (hseg : 2 ≤ (urlPathSegments repoUrl).length) :
    (∀ row, (GithubAnalystAgent.run env freshId db requestId repoUrl).db = db ++ [row] →
      row.status = "complete" ∧ row.aiRanking = some a.aiRanking) ∧
    (GithubAnalystAgent.run (envRank n) freshId [] requestId repoUrl).db =
      [rankRow freshId requestId repoUrl n] := by
  constructor
  · intro row hrow
    cases hfind : findExisting db requestId repoUrl with
    | some r =>
      have hdb : (GithubAnalystAgent.run env freshId db requestId repoUrl).db = db := by
        rw [run_eq_of_found env freshId db requestId repoUrl r hfind]
      rw [hdb] at hrow
      exact absurd hrow (by simp)
    | none =>
      rcases analyzeAttempt_shape env freshId requestId repoUrl with ⟨m, hA⟩ | ⟨d, a2, hg2, hgen2, hA⟩
      · have hdb : (GithubAnalystAgent.run env freshId db requestId repoUrl).db = db := by
          rw [run_eq_of_error env freshId db requestId repoUrl m hfind hA]
        rw [hdb] at hrow
        exact absurd hrow (by simp)
      · have hdb : (GithubAnalystAgent.run env freshId db requestId repoUrl).db
            = db ++ [builtRow freshId requestId repoUrl d a2] := by
          rw [run_eq_of_ok env freshId db requestId repoUrl _ hfind hA]
        rw [hdb] at hrow
        have hb : builtRow freshId requestId repoUrl d a2 = row := by
          have hc := List.append_cancel_left hrow
          simpa using hc
        have ha : a = a2 := by
          have := hgen.symm.trans hgen2
          injection this
        subst hb
        subst ha
        exact ⟨rfl, rfl⟩
  · have hA := analyzeAttempt_eq_ok (envRank n) freshId requestId repoUrl ⟨7⟩ "content"
      ⟨n, "summary", [], [], []⟩ hseg rfl rfl rfl
    have hdb : (GithubAnalystAgent.run (envRank n) freshId [] requestId repoUrl).db
        = [] ++ [builtRow freshId requestId repoUrl ⟨7⟩ ⟨n, "summary", [], [], []⟩] := by
      rw [run_eq_of_ok (envRank n) freshId [] requestId repoUrl _ rfl hA]
    rw [hdb]
    rfl

/-- Witness for the C8 amended theorem at n = 150. -/
theorem analystRun_rank_not_bounded_witness :
    (GithubAnalystAgent.run (envRank 150) "id9" [] "req1" "https://github.com/acme/widget").db =
      [rankRow "id9" "req1" "https://github.com/acme/widget" 150] ∧
    (rankRow "id9" "req1" "https://github.com/acme/widget" 150).status = "complete" ∧
    (rankRow "id9" "req1" "https://github.com/acme/widget" 150).aiRanking = some 150 := by
  have h := analystRun_rank_not_bounded (envRank 150) "id9" [] "req1"
    "https://github.com/acme/widget" 150 ⟨150, "summary", [], [], []⟩ rfl (by decide)
  exact ⟨h.2,
    (h.1 (rankRow "id9" "req1" "https://github.com/acme/widget" 150) (by decide)).1,
    (h.1 (rankRow "id9" "req1" "https://github.com/acme/widget" 150) (by decide)).2⟩

/-- C9: the absence of the optional manifest package.json on the code
host — its read failing with a not-found error — is not an error for the
worker: it treats the file as absent, continues, and still persists a
complete analysis row for the candidate. -/
theorem analystRun_manifest_absent_completes (env : AnalystEnv) (freshId : String)
    (db : List AnalysisRow) (requestId repoUrl : String) (d : RepoDetails) (c : String)
    (a : AnalysisOutput) (e : String)
    (hfind : findExisting db requestId repoUrl = none)
    (hseg : 2 ≤ (urlPathSegments repoUrl).length)
    (hg : env.getRepo = Except.ok d)
    (hr : env.readFile "README.md" = Except.ok c)
    (_h404 : env.readFile "package.json" = Except.error e)
    (hgen : env.generate = Except.ok a) :
    (GithubAnalystAgent.run env freshId db requestId repoUrl).outcome = RunOutcome.completed ∧
    (GithubAnalystAgent.run env freshId db requestId repoUrl).db =
      db ++ [builtRow freshId requestId repoUrl d a] := by
  have hA := analyzeAttempt_eq_ok env freshId requestId repoUrl d c a hseg hg hr hgen
  rw [run_eq_of_ok env freshId db requestId repoUrl _ hfind hA]
  exact ⟨rfl, rfl⟩

/-- Witness for C9: the candidate whose package.json read returns 404. -/
theorem analystRun_manifest_absent_completes_witness :
    (GithubAnalystAgent.run envManifest404 "id7" [] "req1"
        "https://github.com/acme/widget").outcome = RunOutcome.completed ∧
    (GithubAnalystAgent.run envManifest404 "id7" [] "req1" "https://github.com/acme/widget").db =
      [] ++ [builtRow "id7" "req1" "https://github.com/acme/widget" ⟨7⟩
        ⟨60, "summary", [], [], []⟩] :=
  analystRun_manifest_absent_completes envManifest404 "id7" [] "req1"
    "https://github.com/acme/widget" ⟨7⟩ "readme" ⟨60, "summary", [], [], []⟩ "404 Not Found"
    rfl (by decide) rfl rfl rfl rfl

/-- Helper: the status helper on a single matching request row. -/
theorem applyStatus_single (r : RequestRow) (c : String × String × Option String)
    (h : r.id = c.1) : applyStatus [r] c = [{ r with status := c.2.1 }] := by
  simp [applyStatus, h]

/-- C4 counterexample: under the spec-modelled status helper, one analyst
run for request req1 rewrites the status of the request row (which the
orchestrator had set to supervision) to analyzing and then complete — an
AnalystWorker operation mutates the SearchRequest status. -/
theorem analystRun_mutates_request_status :
    applyStatusCalls [{ id := "req1", query := "q", status := "supervision" }]
      (GithubAnalystAgent.run (envRank 50) "id1" [] "req1"
        "https://github.com/acme/widget").statusCalls
      = [{ id := "req1", query := "q", status := "complete" }] ∧
    ({ id := "req1", query := "q", status := "complete" } : RequestRow) ≠
      { id := "req1", query := "q", status := "supervision" } :=
  ⟨rfl, by decide⟩

/-- C4 amended: the request status field is not mutated only by the
orchestrator: through the shared status helper, every AnalystWorker run
rewrites the status of its request row away from the orchestrator phase
(to analyzing, then complete or error), and JudgeAgent.review issues the
judging and judged status calls for the request. -/
theorem request_status_mutated_by_workers (env : AnalystEnv) (freshId : String)
    (db : List AnalysisRow) (requestId repoUrl : String) (r : RequestRow)
    (results : List AnalysisRow) (approved rejected : List String)
    (hid : r.id = requestId) (hst : r.status = "supervision") :
    (applyStatusCalls [r]
        (GithubAnalystAgent.run env freshId db requestId repoUrl).statusCalls =
      [{ r with status :=
          finalStatus (GithubAnalystAgent.run env freshId db requestId repoUrl) }] ∧
     applyStatusCalls [r]
        (GithubAnalystAgent.run env freshId db requestId repoUrl).statusCalls ≠ [r] ∧
     (finalStatus (GithubAnalystAgent.run env freshId db requestId repoUrl) = "analyzing" ∨
      finalStatus (GithubAnalystAgent.run env freshId db requestId repoUrl) = "complete" ∨
      finalStatus (GithubAnalystAgent.run env freshId db requestId repoUrl) = "error")) ∧
    (JudgeAgent.review (Except.ok (approved, rejected)) requestId results).2 =
      [(requestId, "judging", none), (requestId, "judged", none)] := by
  have hmain : ∀ s₁,
      (GithubAnalystAgent.run env freshId db requestId repoUrl).statusCalls = s₁ →
      (s₁ = [(requestId, "analyzing", none)] ∨
       s₁ = [(requestId, "analyzing", none), (requestId, "complete", none)] ∨
       ∃ m, s₁ = [(requestId, "analyzing", none), (requestId, "error", some m)]) := by
    intro s₁ hs
    cases hfind : findExisting db requestId repoUrl with
    | some r₂ =>
      rw [run_eq_of_found env freshId db requestId repoUrl r₂ hfind] at hs
      exact Or.inl hs.symm
    | none =>
      rcases analyzeAttempt_shape env freshId requestId repoUrl with ⟨m, hA⟩ | ⟨d, a, _, _, hA⟩
      · rw [run_eq_of_error env freshId db requestId repoUrl m hfind hA] at hs
        exact Or.inr (Or.inr ⟨m, hs.symm⟩)
      · rw [run_eq_of_ok env freshId db requestId repoUrl _ hfind hA] at hs
        exact Or.inr (Or.inl hs.symm)
  refine ⟨?_, rfl⟩
  rcases hmain _ rfl with hs | hs | ⟨m, hs⟩
  · have hfs : finalStatus (GithubAnalystAgent.run env freshId db requestId repoUrl)
        = "analyzing" := by
      unfold finalStatus
      rw [hs]
      rfl
    rw [hs, hfs]
    rw [show (applyStatusCalls [r] [(requestId, "analyzing", none)]) =
        applyStatus [r] (requestId, "analyzing", none) from rfl,
      applyStatus_single r (requestId, "analyzing", none) hid]
    refine ⟨rfl, ?_, Or.inl rfl⟩
    intro hcontra
    have hstatus := congrArg RequestRow.status (List.head_eq_of_cons_eq hcontra)
    simp at hstatus
    rw [hst] at hstatus
    exact absurd hstatus (by decide)
  · have hfs : finalStatus (GithubAnalystAgent.run env freshId db requestId repoUrl)
        = "complete" := by
      unfold finalStatus
      rw [hs]
      rfl
    rw [hs, hfs]
    rw [show (applyStatusCalls [r]
        [(requestId, "analyzing", none), (requestId, "complete", none)]) =
        applyStatus (applyStatus [r] (requestId, "analyzing", none))
          (requestId, "complete", none) from rfl,
      applyStatus_single r (requestId, "analyzing", none) hid,
      applyStatus_single { r with status := "analyzing" } (requestId, "complete", none) hid]
    refine ⟨rfl, ?_, Or.inr (Or.inl rfl)⟩
    intro hcontra
    have hstatus := congrArg RequestRow.status (List.head_eq_of_cons_eq hcontra)
    simp at hstatus
    rw [hst] at hstatus
    exact absurd hstatus (by decide)
  · have hfs : finalStatus (GithubAnalystAgent.run env freshId db requestId repoUrl)
        = "error" := by
      unfold finalStatus
      rw [hs]
      rfl
    rw [hs, hfs]
    rw [show (applyStatusCalls [r]
        [(requestId, "analyzing", none), (requestId, "error", some m)]) =
        applyStatus (applyStatus [r] (requestId, "analyzing", none))
          (requestId, "error", some m) from rfl,
      applyStatus_single r (requestId, "analyzing", none) hid,
      applyStatus_single { r with status := "analyzing" } (requestId, "error", some m) hid]
    refine ⟨rfl, ?_, Or.inr (Or.inr rfl)⟩
    intro hcontra
    have hstatus := congrArg RequestRow.status (List.head_eq_of_cons_eq hcontra)
    simp at hstatus
    rw [hst] at hstatus
    exact absurd hstatus (by decide)

/-- Witness for the C4 amended theorem at a concrete request row and run. -/
theorem request_status_mutated_by_workers_witness :
    applyStatusCalls [{ id := "req1", query := "q", status := "supervision" }]
      (GithubAnalystAgent.run (envRank 50) "id1" [] "req1"
        "https://github.com/acme/widget").statusCalls =
      [{ id := "req1", query := "q", status :=
          finalStatus (GithubAnalystAgent.run (envRank 50) "id1" [] "req1"
            "https://github.com/acme/widget") }] ∧
    (JudgeAgent.review (Except.ok (["a"], [])) "req1" []).2 =
      [("req1", "judging", none), ("req1", "judged", none)] :=
  ⟨(request_status_mutated_by_workers (envRank 50) "id1" [] "req1"
      "https://github.com/acme/widget" { id := "req1", query := "q", status := "supervision" }
      [] ["a"] [] rfl rfl).1.1,
   (request_status_mutated_by_workers (envRank 50) "id1" [] "req1"
      "https://github.com/acme/widget" { id := "req1", query := "q", status := "supervision" }
      [] ["a"] [] rfl rfl).2⟩

/-- C6: synthesis sorts the loaded results in non-increasing order of
relevance score (aiRanking, null read as 0), selects at most the top 12
(every selected result ranks at least as high as every unselected one),
and when fewer than 12 results exist it proceeds with exactly the results
that exist (a permutation of all of them). -/
theorem synthesis_top_twelve (rs : List AnalysisRow) :
    (synthesisTopTwelve rs).length = min 12 rs.length ∧
    List.Pairwise (fun a b => rankOf b ≤ rankOf a) (synthesisTopTwelve rs) ∧
    (∀ a ∈ synthesisTopTwelve rs, ∀ b ∈ (rs.mergeSort byRankDesc).drop 12,
      rankOf b ≤ rankOf a) ∧
    (rs.length ≤ 12 → (synthesisTopTwelve rs).Perm rs) := by
  have hperm : (rs.mergeSort byRankDesc).Perm rs := List.mergeSort_perm rs byRankDesc
  have hlen : (rs.mergeSort byRankDesc).length = rs.length := hperm.length_eq
  have htrans : ∀ a b c : AnalysisRow, byRankDesc a b = true → byRankDesc b c = true →
      byRankDesc a c = true := by
    intro a b c hab hbc
    simp only [byRankDesc, decide_eq_true_eq] at hab hbc ⊢
    exact le_trans hbc hab
  have htotal : ∀ a b : AnalysisRow, (byRankDesc a b || byRankDesc b a) = true := by
    intro a b
    simp only [byRankDesc, Bool.or_eq_true, decide_eq_true_eq]
    exact le_total (rankOf b) (rankOf a)
  have hsorted : List.Pairwise (fun a b => byRankDesc a b = true) (rs.mergeSort byRankDesc) :=
    List.sorted_mergeSort htrans htotal rs
  have hsorted2 : List.Pairwise (fun a b => rankOf b ≤ rankOf a) (rs.mergeSort byRankDesc) :=
    hsorted.imp (fun h => by simpa [byRankDesc] using h)
  refine ⟨?_, ?_, ?_, ?_⟩
  · unfold synthesisTopTwelve
    rw [List.length_take, hlen]
  · exact List.Pairwise.sublist (List.take_sublist 12 _) hsorted2
  · intro a ha b hb
    have hsplit : List.Pairwise (fun a b => rankOf b ≤ rankOf a)
        (List.take 12 (rs.mergeSort byRankDesc) ++ List.drop 12 (rs.mergeSort byRankDesc)) := by
      rw [List.take_append_drop 12 (rs.mergeSort byRankDesc)]
      exact hsorted2
    exact (List.pairwise_append.mp hsplit).2.2 a ha b hb
  · intro hle
    unfold synthesisTopTwelve
    rw [List.take_of_length_le (by rw [hlen]; exact hle)]
    exact hperm

/-- Witness for C6 at a concrete three-row table (one null score). -/
theorem synthesis_top_twelve_witness :
    (synthesisTopTwelve [rowFix "a" (some 3), rowFix "b" none, rowFix "c" (some 90)]).length
      = min 12 3 ∧
    List.Pairwise (fun a b => rankOf b ≤ rankOf a)
      (synthesisTopTwelve [rowFix "a" (some 3), rowFix "b" none, rowFix "c" (some 90)]) ∧
    (synthesisTopTwelve [rowFix "a" (some 3), rowFix "b" none, rowFix "c" (some 90)]).Perm
      [rowFix "a" (some 3), rowFix "b" none, rowFix "c" (some 90)] :=
  ⟨(synthesis_top_twelve [rowFix "a" (some 3), rowFix "b" none, rowFix "c" (some 90)]).1,
   (synthesis_top_twelve [rowFix "a" (some 3), rowFix "b" none, rowFix "c" (some 90)]).2.1,
   (synthesis_top_twelve [rowFix "a" (some 3), rowFix "b" none, rowFix "c" (some 90)]).2.2.2
     (by decide)⟩

/-- Helper: the nil equation of fillSlots. -/
theorem fillSlots_nil {α : Type} (K : Nat) (r st : List α) :
    fillSlots K [] r st = ([], r, st) := rfl

/-- Helper: the cons equation of fillSlots. -/
theorem fillSlots_cons {α : Type} (K : Nat) (t : α) (rest r st : List α) :
    fillSlots K (t :: rest) r st =
      if r.length < K then fillSlots K rest (r ++ [t]) (st ++ [t])
      else (t :: rest, r, st) := rfl

/-- Helper: fillSlots never exceeds the bound K. -/
theorem fillSlots_running_le {α : Type} (K : Nat) (q r st : List α) (h : r.length ≤ K) :
    (fillSlots K q r st).2.1.length ≤ K := by
  induction q generalizing r st with
  | nil => simpa [fillSlots_nil] using h
  | cons t rest ih =>
    rw [fillSlots_cons]
    by_cases hk : r.length < K
    · rw [if_pos hk]
      exact ih (r ++ [t]) (st ++ [t]) (by simp; omega)
    · rw [if_neg hk]
      simpa using h

/-- Helper: fillSlots dispatches from the queue head, so started plus the
remaining queue is invariant. -/
theorem fillSlots_started_queue {α : Type} (K : Nat) (q r st : List α) :
    (fillSlots K q r st).2.2 ++ (fillSlots K q r st).1 = st ++ q := by
  induction q generalizing r st with
  | nil => simp [fillSlots_nil]
  | cons t rest ih =>
    rw [fillSlots_cons]
    by_cases hk : r.length < K
    · rw [if_pos hk, ih (r ++ [t]) (st ++ [t])]
      simp
    · rw [if_neg hk]

/-- Helper: fillSlots only moves tasks between queue and running. -/
theorem fillSlots_perm {α : Type} (K : Nat) (q r st : List α) :
    ((fillSlots K q r st).1 ++ (fillSlots K q r st).2.1).Perm (q ++ r) := by
  induction q generalizing r st with
  | nil => simp [fillSlots_nil]
  | cons t rest ih =>
    rw [fillSlots_cons]
    by_cases hk : r.length < K
    · rw [if_pos hk]
      refine (ih (r ++ [t]) (st ++ [t])).trans ?_
      simp only [List.cons_append]
      refine List.Perm.trans ?_ (List.Perm.refl (t :: (rest ++ r)))
      rw [← List.append_assoc]
      simpa using @List.perm_append_comm α (rest ++ r) [t]
    · rw [if_neg hk]

/-- Helper: fillSlots leaves a slot free only when the queue is empty. -/
theorem fillSlots_empty_of_lt {α : Type} (K : Nat) (q r st : List α)
    (h : (fillSlots K q r st).2.1.length < K) : (fillSlots K q r st).1 = [] := by
  induction q generalizing r st with
  | nil => rfl
  | cons t rest ih =>
    rw [fillSlots_cons] at h ⊢
    by_cases hk : r.length < K
    · rw [if_pos hk] at h ⊢
      exact ih (r ++ [t]) (st ++ [t]) h
    · rw [if_neg hk] at h
      exact absurd h hk

/-- Helper: fillSlots preserves the number of unfinished tasks. -/
theorem fillSlots_sum {α : Type} (K : Nat) (q r st : List α) :
    (fillSlots K q r st).1.length + (fillSlots K q r st).2.1.length
      = q.length + r.length := by
  induction q generalizing r st with
  | nil => simp [fillSlots_nil]
  | cons t rest ih =>
    rw [fillSlots_cons]
    by_cases hk : r.length < K
    · rw [if_pos hk]
      have := ih (r ++ [t]) (st ++ [t])
      simp at this ⊢
      omega
    · rw [if_neg hk]

/-- Helper: a list is a permutation of its i-th element consed onto the
list with that position erased. -/
theorem perm_get_cons_eraseIdx {α : Type} (l : List α) (i : Nat) (h : i < l.length) :
    l.Perm (l.get ⟨i, h⟩ :: l.eraseIdx i) := by
  induction l generalizing i with
  | nil => simp at h
  | cons x xs ih =>
    cases i with
    | zero => simp [List.eraseIdx]
    | succ n =>
      have hn : n < xs.length := by simpa using h
      show (x :: xs).Perm (xs.get ⟨n, hn⟩ :: x :: xs.eraseIdx n)
      exact ((ih n hn).cons x).trans (List.Perm.swap _ _ _)

/-- Helper: processQueue establishes the scheduler invariant from the
three facts that survive a task removal. -/
theorem processQueue_inv {α : Type} (K : Nat) (tasks : List α) (s : SchedState α)
    (h1 : s.running.length ≤ K)
    (h2 : s.started ++ s.queue = tasks)
    (h3 : (s.queue ++ (s.running ++ s.done.map Prod.fst)).Perm tasks) :
    SchedInv K tasks (processQueue K s) := by
  refine ⟨fillSlots_running_le K s.queue s.running s.started h1, ?_, ?_, ?_⟩
  · show (fillSlots K s.queue s.running s.started).2.2 ++
        (fillSlots K s.queue s.running s.started).1 = tasks
    rw [fillSlots_started_queue]
    exact h2
  · intro hlt
    exact fillSlots_empty_of_lt K s.queue s.running s.started hlt
  · show ((fillSlots K s.queue s.running s.started).1 ++
        ((fillSlots K s.queue s.running s.started).2.1 ++ s.done.map Prod.fst)).Perm tasks
    have hp := (fillSlots_perm K s.queue s.running s.started).append_right
      (s.done.map Prod.fst)
    rw [← List.append_assoc]
    refine hp.trans ?_
    rw [List.append_assoc]
    exact h3

/-- Helper: a completion event preserves the scheduler invariant. -/
theorem finishTask_inv {α : Type} (K : Nat) (tasks : List α) (s : SchedState α)
    (hinv : SchedInv K tasks s) (i : Nat) (ok : Bool) :
    SchedInv K tasks (finishTask K s i ok) := by
  obtain ⟨hb, ho, hf, hp⟩ := hinv
  unfold finishTask
  split
  case isTrue h =>
    apply processQueue_inv
    · show (s.running.eraseIdx i).length ≤ K
      rw [List.length_eraseIdx, if_pos h]
      omega
    · exact ho
    · show (s.queue ++ (s.running.eraseIdx i ++
          (s.done ++ [(s.running.get ⟨i, h⟩, ok)]).map Prod.fst)).Perm tasks
      have hx := perm_get_cons_eraseIdx s.running i h
      have hmap : (s.done ++ [(s.running.get ⟨i, h⟩, ok)]).map Prod.fst
          = s.done.map Prod.fst ++ [s.running.get ⟨i, h⟩] := by
        rw [List.map_append]
        rfl
      rw [hmap]
      have h5 : (s.running.eraseIdx i ++
          (s.done.map Prod.fst ++ [s.running.get ⟨i, h⟩])).Perm
          (s.running ++ s.done.map Prod.fst) := by
        rw [← List.append_assoc]
        refine List.perm_append_comm.trans ?_
        exact hx.symm.append_right (s.done.map Prod.fst)
      exact ((List.Perm.append_left s.queue h5).trans hp)
  case isFalse h =>
    exact ⟨hb, ho, hf, hp⟩

/-- Helper: the invariant holds along every event sequence. -/
theorem runSched_inv {α : Type} (K : Nat) (tasks : List α) (s : SchedState α)
    (hinv : SchedInv K tasks s) (evs : List (Nat × Bool)) :
    SchedInv K tasks (runSched K s evs) := by
  induction evs generalizing s with
  | nil => exact hinv
  | cons e rest ih => exact ih (finishTask K s e.1 e.2) (finishTask_inv K tasks s hinv e.1 e.2)

/-- Helper: the invariant holds after the initial dispatch. -/
theorem initSched_inv {α : Type} (K : Nat) (tasks : List α) :
    SchedInv K tasks (initSched K tasks) := by
  apply processQueue_inv
  · simp
  · simp
  · simp

/-- Helper: an empty running set forces an empty queue (K positive). -/
theorem queue_nil_of_running_nil {α : Type} (K : Nat) (tasks : List α) (s : SchedState α)
    (hinv : SchedInv K tasks s) (hK : 0 < K) (h : s.running = []) : s.queue = [] :=
  hinv.2.2.1 (by rw [h]; simpa using hK)

/-- Helper: processQueue treats outcome-equal states identically. -/
theorem processQueue_sameButOutcomes {α : Type} (K : Nat) (s t : SchedState α)
    (h : SameButOutcomes s t) : SameButOutcomes (processQueue K s) (processQueue K t) := by
  obtain ⟨hq, hr, hst, hd⟩ := h
  unfold processQueue SameButOutcomes
  rw [hq, hr, hst]
  exact ⟨rfl, rfl, rfl, hd⟩

/-- Helper: a completion event treats outcome-equal states identically;
in particular the recorded outcome flag never influences scheduling. -/
theorem finishTask_sameButOutcomes {α : Type} (K : Nat) (s t : SchedState α) (i : Nat)
    (ok1 ok2 : Bool) (h : SameButOutcomes s t) :
    SameButOutcomes (finishTask K s i ok1) (finishTask K t i ok2) := by
  obtain ⟨hq, hr, hst, hd⟩ := h
  unfold finishTask
  rw [hq, hr, hst]
  by_cases hlt : i < t.running.length
  · rw [dif_pos hlt, dif_pos hlt]
    apply processQueue_sameButOutcomes
    refine ⟨rfl, rfl, rfl, ?_⟩
    show (s.done ++ [(t.running.get ⟨i, hlt⟩, ok1)]).map Prod.fst
        = (t.done ++ [(t.running.get ⟨i, hlt⟩, ok2)]).map Prod.fst
    rw [List.map_append, List.map_append, hd]
    rfl
  · rw [dif_neg hlt, dif_neg hlt]
    exact ⟨hq, hr, hst, hd⟩

/-- Helper: two event sequences with the same completion positions drive
outcome-equal states to outcome-equal states. -/
theorem runSched_sameButOutcomes {α : Type} (K : Nat) (s t : SchedState α)
    (h : SameButOutcomes s t) (evs1 evs2 : List (Nat × Bool))
    (he : evs1.map Prod.fst = evs2.map Prod.fst) :
    SameButOutcomes (runSched K s evs1) (runSched K t evs2) := by
  induction evs1 generalizing evs2 s t with
  | nil =>
    cases evs2 with
    | nil => exact h
    | cons e es => simp at he
  | cons e1 rest1 ih =>
    cases evs2 with
    | nil => simp at he
    | cons e2 rest2 =>
      simp only [List.map_cons, List.cons.injEq] at he
      obtain ⟨hfst, hrest⟩ := he
      have hstep : SameButOutcomes (finishTask K s e1.1 e1.2) (finishTask K t e2.1 e2.2) := by
        rw [← hfst]
        exact finishTask_sameButOutcomes K s t e1.1 e1.2 e2.2 h
      show SameButOutcomes (runSched K (finishTask K s e1.1 e1.2) rest1)
        (runSched K (finishTask K t e2.1 e2.2) rest2)
      exact ih (finishTask K s e1.1 e1.2) (finishTask K t e2.1 e2.2) hstep rest2 hrest

/-- Helper: a completion event on a nonempty running set strictly
decreases the number of unfinished tasks. -/
theorem finishTask_zero_sum {α : Type} (K : Nat) (s : SchedState α)
    (hne : s.running ≠ []) :
    (finishTask K s 0 true).queue.length + (finishTask K s 0 true).running.length
      = s.queue.length + s.running.length - 1 := by
  have hlt : 0 < s.running.length := List.length_pos.mpr hne
  unfold finishTask
  rw [dif_pos hlt]
  show (fillSlots K s.queue (s.running.eraseIdx 0) s.started).1.length +
      (fillSlots K s.queue (s.running.eraseIdx 0) s.started).2.1.length = _
  rw [fillSlots_sum, List.length_eraseIdx, if_pos hlt]
  omega

/-- Helper: finishing as many times as there are unfinished tasks drains
the scheduler completely. -/
theorem runSched_drain {α : Type} (K : Nat) (tasks : List α) (hK : 0 < K) :
    ∀ (n : Nat) (s : SchedState α), SchedInv K tasks s →
      s.queue.length + s.running.length = n →
      (runSched K s (List.replicate n (0, true))).queue = [] ∧
      (runSched K s (List.replicate n (0, true))).running = [] := by
  intro n
  induction n with
  | zero =>
    intro s hinv hsum
    show s.queue = [] ∧ s.running = []
    constructor
    · exact List.eq_nil_of_length_eq_zero (by omega)
    · exact List.eq_nil_of_length_eq_zero (by omega)
  | succ n ih =>
    intro s hinv hsum
    have hne : s.running ≠ [] := by
      intro hnil
      have hq := queue_nil_of_running_nil K tasks s hinv hK hnil
      rw [hnil, hq] at hsum
      simp at hsum
    rw [List.replicate_succ]
    show (runSched K (finishTask K s 0 true) (List.replicate n (0, true))).queue = [] ∧
      (runSched K (finishTask K s 0 true) (List.replicate n (0, true))).running = []
    apply ih
    · exact finishTask_inv K tasks s hinv 0 true
    · rw [finishTask_zero_sum K s hne]
      omega

/-- C1: for the delegation scheduler with concurrency bound K = 5, after
any sequence of task-completion events — at most 5 tasks are in flight;
tasks are started in submission order (started is always the dispatched
prefix of the submission list) and a free slot implies an empty queue, so
every finishing task immediately starts the next queued one; the drain
condition (running empty) implies every submitted task is in done, so
Supervision reaches Synthesis only once all tasks finished; the recorded
outcome flags (success or caught failure) have no influence on
scheduling, so one failure never stops the others; and after as many
completion events as tasks the scheduler is fully drained with every task
finished. -/
theorem supervisionScheduler_correct {α : Type} (ts : List α) (evs : List (Nat × Bool)) :
    (runSched 5 (initSched 5 ts) evs).running.length ≤ 5 ∧
    (runSched 5 (initSched 5 ts) evs).started ++ (runSched 5 (initSched 5 ts) evs).queue = ts ∧
    ((runSched 5 (initSched 5 ts) evs).running.length < 5 →
      (runSched 5 (initSched 5 ts) evs).queue = []) ∧
    ((runSched 5 (initSched 5 ts) evs).running = [] →
      ((runSched 5 (initSched 5 ts) evs).done.map Prod.fst).Perm ts) ∧
    (∀ evs2, evs2.map Prod.fst = evs.map Prod.fst →
      (runSched 5 (initSched 5 ts) evs2).queue = (runSched 5 (initSched 5 ts) evs).queue ∧
      (runSched 5 (initSched 5 ts) evs2).running = (runSched 5 (initSched 5 ts) evs).running ∧
      (runSched 5 (initSched 5 ts) evs2).started = (runSched 5 (initSched 5 ts) evs).started ∧
      (runSched 5 (initSched 5 ts) evs2).done.map Prod.fst
        = (runSched 5 (initSched 5 ts) evs).done.map Prod.fst) ∧
    ((runSched 5 (initSched 5 ts) (List.replicate ts.length (0, true))).queue = [] ∧
     (runSched 5 (initSched 5 ts) (List.replicate ts.length (0, true))).running = [] ∧
     ((runSched 5 (initSched 5 ts) (List.replicate ts.length (0, true))).done.map
        Prod.fst).Perm ts) := by
  have hinv := runSched_inv 5 ts (initSched 5 ts) (initSched_inv 5 ts) evs
  refine ⟨hinv.1, hinv.2.1, hinv.2.2.1, ?_, ?_, ?_⟩
  · intro hnil
    have hq : (runSched 5 (initSched 5 ts) evs).queue = [] :=
      queue_nil_of_running_nil 5 ts _ hinv (by omega) hnil
    have hp := hinv.2.2.2
    rw [hq, hnil] at hp
    simpa using hp
  · intro evs2 he
    have h := runSched_sameButOutcomes 5 (initSched 5 ts) (initSched 5 ts)
      ⟨rfl, rfl, rfl, rfl⟩ evs2 evs he
    exact ⟨h.1, h.2.1, h.2.2.1, h.2.2.2⟩
  · have hsum : (initSched 5 ts).queue.length + (initSched 5 ts).running.length
        = ts.length := by
      show (fillSlots 5 ts [] []).1.length + (fillSlots 5 ts [] []).2.1.length = ts.length
      rw [fillSlots_sum]
      simp
    have hd := runSched_drain 5 ts (by omega) ts.length (initSched 5 ts)
      (initSched_inv 5 ts) hsum
    refine ⟨hd.1, hd.2, ?_⟩
    have hinv2 := runSched_inv 5 ts (initSched 5 ts) (initSched_inv 5 ts)
      (List.replicate ts.length (0, true))
    have hp := hinv2.2.2.2
    rw [hd.1, hd.2] at hp
    simpa using hp

/-- Witness for C1 at two concrete tasks: a clean completion followed by
a caught failure, fully draining the queue, plus an outcome-flipped pair
of event sequences. -/
theorem supervisionScheduler_correct_witness :
    (runSched 5 (initSched 5 ["t1", "t2"]) [(0, true), (0, false)]).running.length ≤ 5 ∧
    (runSched 5 (initSched 5 ["t1", "t2"]) [(0, true), (0, false)]).queue = [] ∧
    ((runSched 5 (initSched 5 ["t1", "t2"]) [(0, true), (0, false)]).done.map
      Prod.fst).Perm ["t1", "t2"] ∧
    (runSched 5 (initSched 5 ["t1", "t2"]) [(0, true), (1, true)]).done.map Prod.fst
      = (runSched 5 (initSched 5 ["t1", "t2"]) [(0, true), (1, false)]).done.map Prod.fst :=
  ⟨(supervisionScheduler_correct ["t1", "t2"] [(0, true), (0, false)]).1,
   (supervisionScheduler_correct ["t1", "t2"] [(0, true), (0, false)]).2.2.1 (by decide),
   (supervisionScheduler_correct ["t1", "t2"] [(0, true), (0, false)]).2.2.2.1 (by decide),
   ((supervisionScheduler_correct ["t1", "t2"] [(0, true), (1, false)]).2.2.2.2.1
     [(0, true), (1, true)] (by decide)).2.2.2⟩
